import Mathlib

/-!
Shallow embedding of the auto-proxy route discovery core (src/events.go).

The program has two parts:
* `createRoutes` — one enumeration pass: from the listing of running
  containers and their per-container inspection results, build a snapshot
  mapping host keys to routes (events.go lines 17-116).
* `watchEvents` — the synchronization loop: connection lifecycle, liveness
  pings, event-stream subscription, triggering enumeration passes and
  publishing snapshots to the consumer callback (events.go lines 118-199).

External I/O (listing, inspection, ping, connect, subscribe, stream events)
is modelled as a script of oracle inputs consumed in program order; the loop
is embedded as an executable step function on an explicit control state,
emitting a trace of observable actions.

The Route Builder, `Route.isValid` and `Routes.Add` live in a repository
file that is not part of src/ (only events.go is); they are modelled from
the spec where noted.
-/

namespace AutoProxy

/-- One host-port binding of a container port (go-dockerclient PortBinding). -/
structure PortBinding where
  hostIP : String
  hostPort : String
  deriving DecidableEq

/-- One attached network of a container, as iterated by the enumeration pass.
The list order stands for the (arbitrary) iteration order of the
`NetworkSettings.Networks` map observed during the pass. -/
structure ContainerNetwork where
  ipAddress : String
  deriving DecidableEq

/-- The parts of `container.NetworkSettings` read by `createRoutes`:
the TCP port-binding map (keys like "8080/tcp"), the bridge IP address,
and the attached networks. -/
structure NetworkSettings where
  ports : List (String × List PortBinding)
  ipAddress : String
  networks : List ContainerNetwork
  deriving DecidableEq

/-- Modelled from the spec: the Route Builder (`NewRouteBuilder().ParseAll`,
in a repository file outside src/) is a pure parse of the container's
environment into a possibly-incomplete route: a host key and an explicit
port when one is declared, empty strings otherwise.  We take its output as
an input field of the inspected container. -/
structure BuilderRoute where
  host : String
  port : String
  deriving DecidableEq

/-- The result of inspecting one container: the fields of
`docker.Container` that `createRoutes` reads.  `node` mirrors
`container.Node` (`none` = purely local container, `some` = remote node). -/
structure Container where
  id : String
  name : String
  builder : BuilderRoute
  networkSettings : NetworkSettings
  node : Option Unit
  deriving DecidableEq

/-- Upstream endpoint of a route: IP, port and container name. -/
structure Upstream where
  ip : String
  port : String
  container : String
  deriving DecidableEq

/-- One routing-table entry: host key and upstream endpoint. -/
structure Route where
  host : String
  upstream : Upstream
  deriving DecidableEq

/-- Modelled from the spec: a Route is valid iff `host_key`, `upstream.ip`
and `upstream.port` are all non-empty (`route.isValid()` lives in a
repository file outside src/). -/
def Route.isValid (r : Route) : Bool :=
  r.host != "" && r.upstream.ip != "" && r.upstream.port != ""

/-- A snapshot: mapping from host key to route, as an association list. -/
abbrev Routes := List (String × Route)

/-- Modelled from the spec: `routes.Add(route)` stores the route under its
host key, keys unique (insert-or-replace, as Go map assignment). -/
def Routes.add (rs : Routes) (r : Route) : Routes :=
  rs.filter (fun kv => kv.1 != r.host) ++ [(r.host, r)]

/-- Lookup in a snapshot by host key. -/
def Routes.lookup (rs : Routes) (k : String) : Option Route :=
  (List.find? (fun kv => kv.1 == k) rs).map (fun kv => kv.2)

/-- Lookup in the container's port-binding map (presence of the key is what
`_, ok := container.NetworkSettings.Ports[portDef]` tests). -/
def lookupPorts (ps : List (String × List PortBinding)) (k : String) :
    Option (List PortBinding) :=
  (List.find? (fun kv => kv.1 == k) ps).map (fun kv => kv.2)

/-- Port resolution (events.go lines 52-60): the builder's explicit port if
declared; otherwise the first port of the candidate list (`*ports`, split on
commas) whose "/tcp" key occurs in the container's port-binding map; empty
string when nothing resolves. -/
def resolvedPort (cands : List String) (c : Container) : String :=
  if c.builder.port = "" then
    match cands.find? (fun p =>
        (lookupPorts c.networkSettings.ports (p ++ "/tcp")).isSome) with
    | some p => p
    | none => ""
  else c.builder.port

/-- The bindings of the resolved port (events.go lines 72-73); a missing key
yields the empty list, as indexing a Go map does. -/
def bindingsFor (cands : List String) (c : Container) : List PortBinding :=
  (lookupPorts c.networkSettings.ports (resolvedPort cands c ++ "/tcp")).getD []

/-- The first binding whose host IP is not the wildcard address
(events.go lines 76-82). -/
def firstNonWildcard (bs : List PortBinding) : Option PortBinding :=
  bs.find? (fun b => b.hostIP != "0.0.0.0")

/-- The first non-empty IP among the attached networks (events.go
lines 92-97); empty string when none. -/
def firstNetworkIP (ns : List ContainerNetwork) : String :=
  match ns.find? (fun n => n.ipAddress != "") with
  | some n => n.ipAddress
  | none => ""

/-- The route's port after the binding loop (events.go lines 76-82): the
first non-wildcard binding's host port overwrites the resolved port. -/
def selPort (cands : List String) (c : Container) : String :=
  match firstNonWildcard (bindingsFor cands c) with
  | some b => b.hostPort
  | none => resolvedPort cands c

/-- The route's IP after the binding loop (events.go lines 76-82): the
first non-wildcard binding's host IP, else still empty. -/
def selIP0 (cands : List String) (c : Container) : String :=
  match firstNonWildcard (bindingsFor cands c) with
  | some b => b.hostIP
  | none => ""

/-- The route's IP after the bridge fallback (events.go lines 85-88):
for a local container with no IP yet, the bridge address. -/
def selIP1 (cands : List String) (c : Container) : String :=
  if c.node = none ∧ selIP0 cands c = "" then c.networkSettings.ipAddress
  else selIP0 cands c

/-- The route's IP after the attached-networks fallback (events.go
lines 91-98). -/
def selIP (cands : List String) (c : Container) : String :=
  if c.node = none ∧ selIP1 cands c = "" then firstNetworkIP c.networkSettings.networks
  else selIP1 cands c

/-- The loop body of `createRoutes` for one successfully inspected
container, before the validity gate (events.go lines 47-104): skip when no
port resolves (line 63) or no IP resolves (line 100), otherwise the route
with the container's name filled in. -/
def candidateRoute (cands : List String) (c : Container) : Option Route :=
  if resolvedPort cands c = "" then none
  else if selIP cands c = "" then none
  else some ⟨c.builder.host, ⟨selIP cands c, selPort cands c, c.name⟩⟩

/-- The loop body of `createRoutes` for one successfully inspected
container (events.go lines 47-112), validity gate included (line 106).
`none` means the container contributes no route (any `continue` path). -/
def routeForContainer (cands : List String) (c : Container) : Option Route :=
  match candidateRoute cands c with
  | none => none
  | some route => if route.isValid then some route else none

/-- One step of snapshot assembly: a failed inspection (`none`) contributes
nothing; a successful one contributes its route when one is produced. -/
def admitContainer (cands : List String) (rs : Routes) (oc : Option Container) :
    Routes :=
  match oc with
  | none => rs
  | some c =>
    match routeForContainer cands c with
    | none => rs
    | some r => Routes.add rs r

/-- `createRoutes` (events.go lines 17-116).  The input is the outcome of
the listing call: `none` when listing failed (the pass aborts with that
error before any table is built), otherwise the per-container inspection
results in channel-arrival order (`none` entries are containers whose
inspection failed).  The snapshot starts empty and admits routes one
container at a time. -/
def createRoutes (cands : List String)
    (listing : Option (List (Option Container))) : Option Routes :=
  match listing with
  | none => none
  | some insp => some (insp.foldl (admitContainer cands) [])

/-!
The synchronization loop `watchEvents` (events.go lines 118-199), embedded
as an executable step function.  The loop's interactions with the outside
world are consumed from a script, in the order the source performs them;
each step emits a trace of observable actions.
-/

/-- Observable actions of the loop, in emission order. -/
inductive Act where
  | connectAttempt
  | connectFail
  | connectOk
  | sleep
  | pingFail
  | addListener
  | subscribeFail
  | removeListener
  | enumerate
  | enumError
  | publish (r : Routes)
  deriving DecidableEq

/-- Events delivered by the `select` on the event channel: a nil event
(stream closure), an API event carrying its status, or the idle timeout. -/
inductive StreamEv where
  | nilEv
  | apiEv (status : String)
  | timeout
  deriving DecidableEq

/-- Oracle inputs, consumed in the order the source consults the world:
ping results, connect results, the listing/inspection world of an
enumeration pass, subscribe results, and stream events. -/
inductive Inp where
  | ping (ok : Bool)
  | connect (ok : Bool)
  | world (w : Option (List (Option Container)))
  | subscribe (ok : Bool)
  | ev (e : StreamEv)
  deriving DecidableEq

/-- Static configuration of the loop: the candidate port list and whether a
consumer callback is registered (`updateFunc != nil`). -/
structure WCfg where
  cands : List String
  hasCb : Bool
  deriving DecidableEq

/-- Control location: top of the outer (reconnect) loop, or top of the
inner (watch) loop. -/
inductive Loc where
  | outer
  | inner
  deriving DecidableEq

/-- The loop's state: control location, whether `client != nil`, the
`watching` flag, and the snapshot last handed to the consumer callback
(the consumer's view; `none` when nothing was ever published). -/
structure WState where
  loc : Loc
  client : Bool
  watching : Bool
  published : Option Routes
  deriving DecidableEq

/-- The connect-and-enumerate sequence at the top of the outer loop
(events.go lines 125-139): `NewClientFromEnv`, on failure sleep and retry
the outer loop; on success run `createRoutes` and publish when it succeeded
and a callback is registered, then fall into the inner loop (the
`watching := false` of line 145). -/
def connectSeq (cfg : WCfg) (s : WState) (script : List Inp) :
    Option (WState × List Inp × List Act) :=
  match script with
  | Inp.connect ok :: rest =>
    if ok then
      match rest with
      | Inp.world w :: rest2 =>
        match createRoutes cfg.cands w with
        | none =>
          some ({ s with client := true, watching := false, loc := Loc.inner },
                rest2, [Act.connectAttempt, Act.connectOk, Act.enumerate, Act.enumError])
        | some r =>
          if cfg.hasCb then
            some ({ loc := Loc.inner, client := true, watching := false,
                    published := some r }, rest2,
                  [Act.connectAttempt, Act.connectOk, Act.enumerate, Act.publish r])
          else
            some ({ s with client := true, watching := false, loc := Loc.inner },
                  rest2, [Act.connectAttempt, Act.connectOk, Act.enumerate])
      | _ => none
    else
      some ({ s with client := false }, rest,
            [Act.connectAttempt, Act.connectFail, Act.sleep])
  | _ => none

/-- The `select` on the event channel (events.go lines 173-196): a nil
event tears down the subscription and drops the client (lines 175-182); a
lifecycle event of status start/stop/die runs an enumeration pass and
publishes on success (lines 184-193); other statuses and the idle timeout
do nothing. -/
def selectStep (cfg : WCfg) (s : WState) (script : List Inp) (acts : List Act) :
    Option (WState × List Inp × List Act) :=
  match script with
  | Inp.ev e :: rest =>
    match e with
    | StreamEv.timeout => some (s, rest, acts)
    | StreamEv.nilEv =>
      if s.watching then
        some ({ s with client := false, watching := false }, rest,
              acts ++ [Act.removeListener])
      else some (s, rest, acts)
    | StreamEv.apiEv st =>
      if st == "start" || st == "stop" || st == "die" then
        match rest with
        | Inp.world w :: rest2 =>
          match createRoutes cfg.cands w with
          | none => some (s, rest2, acts ++ [Act.enumerate, Act.enumError])
          | some r =>
            if cfg.hasCb then
              some ({ s with published := some r }, rest2,
                    acts ++ [Act.enumerate, Act.publish r])
            else some (s, rest2, acts ++ [Act.enumerate])
        | _ => none
      else some (s, rest, acts)
  | _ => none

/-- One iteration of the inner watch loop (events.go lines 146-197): break
to the outer loop when the client is gone (line 147); ping, and on ping
failure tear down the subscription and drop the client only when watching,
then sleep and break (lines 150-160); subscribe when not yet watching
(lines 162-171); then the `select`. -/
def innerStep (cfg : WCfg) (s : WState) (script : List Inp) :
    Option (WState × List Inp × List Act) :=
  if s.client = false then some ({ s with loc := Loc.outer }, script, [])
  else
    match script with
    | Inp.ping ok :: rest =>
      if ok then
        if s.watching then selectStep cfg s rest []
        else
          match rest with
          | Inp.subscribe ok2 :: rest2 =>
            if ok2 then
              selectStep cfg { s with watching := true } rest2 [Act.addListener]
            else some (s, rest2, [Act.subscribeFail, Act.sleep])
          | _ => none
      else
        if s.watching then
          some ({ loc := Loc.outer, client := false, watching := false,
                  published := s.published }, rest,
                [Act.pingFail, Act.removeListener, Act.sleep])
        else
          some ({ s with loc := Loc.outer }, rest, [Act.pingFail, Act.sleep])
    | _ => none

/-- One iteration of the outer loop head (events.go lines 123-145): the
condition `client == nil || client.Ping() == nil` runs the
connect-and-enumerate sequence when the client is gone (without consulting
ping) or when the ping call returns nil; otherwise it falls into the inner
loop with the `watching` flag reset. -/
def outerStep (cfg : WCfg) (s : WState) (script : List Inp) :
    Option (WState × List Inp × List Act) :=
  if s.client then
    match script with
    | Inp.ping ok :: rest =>
      if ok then connectSeq cfg s rest
      else some ({ s with loc := Loc.inner, watching := false }, rest, [])
    | _ => none
  else connectSeq cfg s script

/-- One step of `watchEvents`: dispatch on the control location. -/
def watchStep (cfg : WCfg) (s : WState) (script : List Inp) :
    Option (WState × List Inp × List Act) :=
  match s.loc with
  | Loc.outer => outerStep cfg s script
  | Loc.inner => innerStep cfg s script

/-- Run the loop for a bounded number of steps, halting early when the
script does not supply the next required input; returns the concatenated
action trace and the final state. -/
def watchRun (cfg : WCfg) : Nat → WState → List Inp → List Act × WState
  | 0, s, _ => ([], s)
  | Nat.succ n, s, script =>
    match watchStep cfg s script with
    | none => ([], s)
    | some (s2, rest, acts) =>
      let t := watchRun cfg n s2 rest
      (acts ++ t.1, t.2)

/-- Whether an action publishes a snapshot to the consumer callback. -/
def Act.isPublish : Act → Bool
  | Act.publish _ => true
  | _ => false

/-! Helper lemmas about the enumeration pass. -/

theorem routeForContainer_candidate (cands : List String) (c : Container)
    (r : Route) (h : routeForContainer cands c = some r) :
    candidateRoute cands c = some r ∧ r.isValid = true := by
  unfold routeForContainer at h
  split at h
  · exact Option.noConfusion h
  · rename_i rt hrt
    split at h
    · rw [Option.some_inj] at h
      subst h
      exact ⟨hrt, by assumption⟩
    · exact Option.noConfusion h

theorem candidateRoute_shape (cands : List String) (c : Container) (r : Route)
    (h : candidateRoute cands c = some r) :
    r = ⟨c.builder.host, ⟨selIP cands c, selPort cands c, c.name⟩⟩ := by
  unfold candidateRoute at h
  split at h
  · exact Option.noConfusion h
  · split at h
    · exact Option.noConfusion h
    · rw [Option.some_inj] at h
      exact h.symm

theorem isValid_fields (r : Route) (h : r.isValid = true) :
    r.host ≠ "" ∧ r.upstream.ip ≠ "" ∧ r.upstream.port ≠ "" := by
  simpa [Route.isValid, Bool.and_eq_true, bne_iff_ne, and_assoc] using h

theorem mem_routes_add (rs : Routes) (r : Route) (kv : String × Route)
    (h : kv ∈ Routes.add rs r) : kv = (r.host, r) ∨ kv ∈ rs := by
  rcases List.mem_append.mp h with h1 | h1
  · exact Or.inr (List.mem_of_mem_filter h1)
  · exact Or.inl (by simpa using h1)

theorem admitContainer_valid (cands : List String) (rs : Routes)
    (oc : Option Container)
    (hinv : ∀ kv ∈ rs, (kv : String × Route).2.isValid = true) :
    ∀ kv ∈ admitContainer cands rs oc, (kv : String × Route).2.isValid = true := by
  intro kv hkv
  unfold admitContainer at hkv
  split at hkv
  · exact hinv kv hkv
  · rename_i c
    split at hkv
    · exact hinv kv hkv
    · rename_i r hr
      rcases mem_routes_add rs r kv hkv with h | h
      · subst h
        exact (routeForContainer_candidate cands c r hr).2
      · exact hinv kv h

theorem foldl_admit_valid (cands : List String) :
    ∀ (insp : List (Option Container)) (rs : Routes),
      (∀ kv ∈ rs, (kv : String × Route).2.isValid = true) →
      ∀ kv ∈ insp.foldl (admitContainer cands) rs,
        (kv : String × Route).2.isValid = true := by
  intro insp
  induction insp with
  | nil =>
    intro rs h kv hkv
    simpa using h kv (by simpa using hkv)
  | cons hd tl ih =>
    intro rs h kv hkv
    rw [List.foldl_cons] at hkv
    exact ih _ (admitContainer_valid cands rs hd h) kv hkv

theorem lookup_mem (rs : Routes) (k : String) (r : Route)
    (h : Routes.lookup rs k = some r) : ∃ kv ∈ rs, (kv : String × Route).2 = r := by
  unfold Routes.lookup at h
  rcases Option.map_eq_some'.mp h with ⟨kv, hfind, hkv⟩
  exact ⟨kv, List.mem_of_find?_eq_some hfind, hkv⟩

/-! The claims. -/

/-- Claim C1: every snapshot returned by a successful enumeration pass
contains only valid routes — for every route stored in the mapping, the
host key, upstream IP and upstream port are all non-empty; a route failing
this test is never added. -/
theorem c1_snapshot_routes_valid (cands : List String)
    (listing : Option (List (Option Container))) (rs : Routes)
    (h : createRoutes cands listing = some rs) :
    ∀ k r, Routes.lookup rs k = some r →
      r.host ≠ "" ∧ r.upstream.ip ≠ "" ∧ r.upstream.port ≠ "" := by
  intro k r hl
  cases listing with
  | none => exact Option.noConfusion h
  | some insp =>
    unfold createRoutes at h
    rw [Option.some_inj] at h
    subst h
    rcases lookup_mem _ k r hl with ⟨kv, hmem, hkv⟩
    have hv := foldl_admit_valid cands insp [] (by simp) kv hmem
    rw [hkv] at hv
    exact isValid_fields r hv

/-- A container whose resolved port has one binding with an empty host IP:
the binding loop selects it (its host IP is not "0.0.0.0"), so the bound
host port sticks, but the empty IP then falls through to the bridge
address. -/
def contEmptyHostIP : Container :=
  ⟨"abc0123456789", "/web", ⟨"foo.example.com", "80"⟩,
   ⟨[("80/tcp", [⟨"", "32768"⟩])], "172.17.0.2", []⟩, none⟩

/-- Claim C2, counterexample: the container's TCP bindings for the resolved
port "80" contain a binding whose host IP ("") is not "0.0.0.0", yet the
produced route's upstream IP is the bridge address "172.17.0.2", not that
binding's host IP; and the local fallback keeps the bound host port
"32768", not the container-internal resolved port "80". -/
theorem c2_counterexample :
    routeForContainer ["8080"] contEmptyHostIP =
      some ⟨"foo.example.com", ⟨"172.17.0.2", "32768", "/web"⟩⟩ ∧
    firstNonWildcard (bindingsFor ["8080"] contEmptyHostIP) =
      some ⟨"", "32768"⟩ ∧
    resolvedPort ["8080"] contEmptyHostIP = "80" ∧
    ("172.17.0.2" : String) ≠ "" ∧ ("32768" : String) ≠ "80" := by
  refine ⟨rfl, rfl, rfl, by decide, by decide⟩

/-- Claim C2 (amended): address resolution is first-match-wins over the
resolved port's bindings, a wildcard ("0.0.0.0") host IP being skipped:
the selected binding's host port always overwrites the route's port, and
its host IP becomes the route's IP whenever that host IP is non-empty;
when the selected binding's host IP is empty, or no binding is selected, a
local container falls back to the bridge address and then to the first
non-empty attached-network IP (with the container-internal resolved port
kept only in the no-binding-selected case). -/
theorem c2_amended_address_resolution (cands : List String) (c : Container)
    (r : Route) (h : routeForContainer cands c = some r) :
    (∀ b, firstNonWildcard (bindingsFor cands c) = some b →
      r.upstream.port = b.hostPort ∧
      (b.hostIP ≠ "" → r.upstream.ip = b.hostIP) ∧
      (b.hostIP = "" → c.node = none →
        (c.networkSettings.ipAddress ≠ "" →
          r.upstream.ip = c.networkSettings.ipAddress) ∧
        (c.networkSettings.ipAddress = "" →
          r.upstream.ip = firstNetworkIP c.networkSettings.networks))) ∧
    (firstNonWildcard (bindingsFor cands c) = none → c.node = none →
      (c.networkSettings.ipAddress ≠ "" →
        r.upstream.ip = c.networkSettings.ipAddress ∧
        r.upstream.port = resolvedPort cands c) ∧
      (c.networkSettings.ipAddress = "" →
        r.upstream.ip = firstNetworkIP c.networkSettings.networks ∧
        r.upstream.port = resolvedPort cands c)) := by
  obtain ⟨hc, _⟩ := routeForContainer_candidate cands c r h
  have hshape := candidateRoute_shape cands c r hc
  subst hshape
  constructor
  · intro b hb
    have h0 : selIP0 cands c = b.hostIP := by simp [selIP0, hb]
    have hp : selPort cands c = b.hostPort := by simp [selPort, hb]
    refine ⟨hp, ?_, ?_⟩
    · intro hip
      have h1 : selIP1 cands c = b.hostIP := by simp [selIP1, h0, hip]
      simp [selIP, h1, hip]
    · intro hip hnode
      have h1 : selIP1 cands c = c.networkSettings.ipAddress := by
        simp [selIP1, h0, hip, hnode]
      constructor
      · intro hbr
        simp [selIP, h1, hbr]
      · intro hbr
        simp [selIP, h1, hbr, hnode]
  · intro hb hnode
    have h0 : selIP0 cands c = "" := by simp [selIP0, hb]
    have hp : selPort cands c = resolvedPort cands c := by simp [selPort, hb]
    have h1 : selIP1 cands c = c.networkSettings.ipAddress := by
      simp [selIP1, h0, hnode]
    constructor
    · intro hbr
      exact ⟨by simp [selIP, h1, hbr], hp⟩
    · intro hbr
      exact ⟨by simp [selIP, h1, hbr, hnode], hp⟩

/-- A container with a proper (non-empty, non-wildcard) host binding. -/
def contBound : Container :=
  ⟨"abc0123456789", "/web", ⟨"foo.example.com", ""⟩,
   ⟨[("8080/tcp", [⟨"10.0.0.5", "32768"⟩])], "172.17.0.2", []⟩, none⟩

/-- Witness for C2 (amended) at the spec's non-wildcard-binding scenario:
the route's upstream becomes 10.0.0.5:32768. -/
theorem c2_amended_witness :
    (routeForContainer ["8080"] contBound).isSome = true ∧
    (⟨"foo.example.com", ⟨"10.0.0.5", "32768", "/web"⟩⟩ : Route).upstream.port
      = "32768" ∧
    (⟨"foo.example.com", ⟨"10.0.0.5", "32768", "/web"⟩⟩ : Route).upstream.ip
      = "10.0.0.5" := by
  have h := c2_amended_address_resolution ["8080"] contBound
    ⟨"foo.example.com", ⟨"10.0.0.5", "32768", "/web"⟩⟩ rfl
  have hb := h.1 ⟨"10.0.0.5", "32768"⟩ rfl
  exact ⟨rfl, hb.1, hb.2.1 (by decide)⟩

/-- Claim C3: with no explicit builder port, the resolved port is the first
candidate, in list order, whose "/tcp" key occurs among the container's
port bindings; with no match the container contributes no route to the
snapshot. -/
theorem c3_candidate_port_resolution (cands : List String) (c : Container)
    (hb : c.builder.port = "") :
    resolvedPort cands c = (cands.find? (fun p =>
        (lookupPorts c.networkSettings.ports (p ++ "/tcp")).isSome)).getD "" ∧
    (cands.find? (fun p =>
        (lookupPorts c.networkSettings.ports (p ++ "/tcp")).isSome) = none →
      routeForContainer cands c = none ∧
      ∀ pre post, createRoutes cands (some (pre ++ some c :: post)) =
        createRoutes cands (some (pre ++ post))) := by
  constructor
  · unfold resolvedPort
    rw [if_pos hb]
    cases hf : cands.find? (fun p =>
        (lookupPorts c.networkSettings.ports (p ++ "/tcp")).isSome) <;> simp
  · intro hf
    have hrp : resolvedPort cands c = "" := by simp [resolvedPort, hb, hf]
    have hcand : candidateRoute cands c = none := by simp [candidateRoute, hrp]
    have hroute : routeForContainer cands c = none := by
      simp [routeForContainer, hcand]
    refine ⟨hroute, ?_⟩
    intro pre post
    simp [createRoutes, List.foldl_append, List.foldl_cons, admitContainer, hroute]

/-- A container with no explicit port and no candidate match. -/
def contNoPort : Container :=
  ⟨"def0123456789", "/db", ⟨"db.example.com", ""⟩, ⟨[], "172.17.0.3", []⟩, none⟩

/-- Witness for C3: with candidate list ["8080"] and an empty binding map,
the container is skipped and the snapshot is the one built without it. -/
theorem c3_witness :
    routeForContainer ["8080"] contNoPort = none ∧
    createRoutes ["8080"] (some [some contNoPort]) =
      createRoutes ["8080"] (some []) := by
  have h := (c3_candidate_port_resolution ["8080"] contNoPort rfl).2 rfl
  exact ⟨h.1, h.2 [] []⟩

/-- Claim C5: enumeration is deterministic in its inputs — two passes over
identical listing and per-container inspection results (channel order and
network iteration order included) yield equal results, and in particular
snapshots equal as mappings from host key to route. -/
theorem c5_idempotent_enumeration (cands : List String)
    (l1 l2 : Option (List (Option Container))) (h : l1 = l2) :
    createRoutes cands l1 = createRoutes cands l2 ∧
    ∀ rs1 rs2, createRoutes cands l1 = some rs1 →
      createRoutes cands l2 = some rs2 →
      ∀ k, Routes.lookup rs1 k = Routes.lookup rs2 k := by
  subst h
  refine ⟨rfl, ?_⟩
  intro rs1 rs2 h1 h2 k
  rw [h1, Option.some_inj] at h2
  rw [h2]

/-- Witness for C5 at a concrete container set. -/
theorem c5_witness :
    createRoutes ["8080"] (some [some contBound]) =
      createRoutes ["8080"] (some [some contBound]) :=
  (c5_idempotent_enumeration ["8080"] (some [some contBound])
    (some [some contBound]) rfl).1

theorem foldl_admit_filterMap (cands : List String) :
    ∀ (insp : List (Option Container)) (acc : Routes),
      insp.foldl (admitContainer cands) acc =
        ((insp.filterMap id).map Option.some).foldl (admitContainer cands) acc := by
  intro insp
  induction insp with
  | nil => intro acc; rfl
  | cons hd tl ih =>
    intro acc
    cases hd with
    | none =>
      rw [List.foldl_cons]
      have h1 : admitContainer cands acc none = acc := rfl
      rw [h1]
      have h2 : (none :: tl).filterMap (α := Option Container) id = tl.filterMap id := by
        simp [List.filterMap_cons]
      rw [h2]
      exact ih acc
    | some c =>
      rw [List.foldl_cons]
      have h2 : ((some c :: tl).filterMap (α := Option Container) id) =
          c :: tl.filterMap id := by
        simp [List.filterMap_cons]
      rw [h2, List.map_cons, List.foldl_cons]
      exact ih (admitContainer cands acc (some c))

/-- Claim C9: per-container inspection failures never fail the pass —
`createRoutes` on any inspection outcome list returns a snapshot with a nil
error, and that snapshot is the one built from the successfully inspected
containers alone. -/
theorem c9_inspection_failures_skipped (cands : List String)
    (insp : List (Option Container)) :
    (createRoutes cands (some insp)).isSome = true ∧
    createRoutes cands (some insp) =
      createRoutes cands (some ((insp.filterMap id).map Option.some)) := by
  refine ⟨by simp [createRoutes], ?_⟩
  simp only [createRoutes]
  rw [foldl_admit_filterMap cands insp]

/-- Witness for C9: a pass over one failed and one successful inspection
equals the pass over the successful one alone. -/
theorem c9_witness :
    createRoutes ["8080"] (some [none, some contBound]) =
      createRoutes ["8080"] (some [some contBound]) := by
  have h := (c9_inspection_failures_skipped ["8080"] [none, some contBound]).2
  simpa using h

/-- Witness for C1 at a concrete successful pass. -/
theorem c1_witness :
    (⟨"foo.example.com", ⟨"10.0.0.5", "32768", "/web"⟩⟩ : Route).host ≠ "" ∧
    (⟨"foo.example.com", ⟨"10.0.0.5", "32768", "/web"⟩⟩ : Route).upstream.ip ≠ "" ∧
    (⟨"foo.example.com", ⟨"10.0.0.5", "32768", "/web"⟩⟩ : Route).upstream.port ≠ "" :=
  c1_snapshot_routes_valid ["8080"] (some [some contBound])
    [("foo.example.com", ⟨"foo.example.com", ⟨"10.0.0.5", "32768", "/web"⟩⟩)] rfl
    "foo.example.com" ⟨"foo.example.com", ⟨"10.0.0.5", "32768", "/web"⟩⟩ rfl

/-- A loop configuration used by the concrete watch-loop statements. -/
def cfg0 : WCfg := ⟨["80"], true⟩

/-- Claim C6, counterexample: a ping failure in the connected but
not-yet-watching sub-state sleeps for the reconnect interval but does NOT
drop the client handle and does NOT tear down any subscription — the state
keeps `client = true`, contradicting "the handle drop happens after every
ping failure regardless of the current sub-state". -/
theorem c6_counterexample :
    watchStep cfg0 ⟨Loc.inner, true, false, none⟩ [Inp.ping false] =
      some (⟨Loc.outer, true, false, none⟩, [], [Act.pingFail, Act.sleep]) ∧
    (⟨Loc.outer, true, false, none⟩ : WState).client = true ∧
    Act.removeListener ∉ [Act.pingFail, Act.sleep] ∧
    Act.sleep ∈ [Act.pingFail, Act.sleep] := by
  refine ⟨rfl, rfl, by decide, by decide⟩

/-- Claim C6 (amended): after every ping failure in the connected state the
loop waits the fixed reconnect interval; the event-subscription teardown,
the client-handle drop and the transition back to Disconnected happen only
in the watching sub-state — in the not-yet-watching sub-state the client
handle is retained and re-checked after the backoff.  After the watching
teardown the handle is gone, so the next step is a connection attempt. -/
theorem c6_amended_ping_failure (cfg : WCfg) (p : Option Routes) (rest : List Inp) :
    watchStep cfg ⟨Loc.inner, true, true, p⟩ (Inp.ping false :: rest) =
      some (⟨Loc.outer, false, false, p⟩, rest,
            [Act.pingFail, Act.removeListener, Act.sleep]) ∧
    watchStep cfg ⟨Loc.inner, true, false, p⟩ (Inp.ping false :: rest) =
      some (⟨Loc.outer, true, false, p⟩, rest, [Act.pingFail, Act.sleep]) ∧
    watchStep cfg ⟨Loc.outer, false, false, p⟩ (Inp.connect false :: rest) =
      some (⟨Loc.outer, false, false, p⟩, rest,
            [Act.connectAttempt, Act.connectFail, Act.sleep]) := by
  refine ⟨rfl, rfl, rfl⟩

/-- Witness for C6 (amended) at a concrete state. -/
theorem c6_amended_witness :
    watchStep cfg0 ⟨Loc.inner, true, true, none⟩ [Inp.ping false] =
      some (⟨Loc.outer, false, false, none⟩, [],
            [Act.pingFail, Act.removeListener, Act.sleep]) :=
  (c6_amended_ping_failure cfg0 none []).1

/-- Claim C7: a nil event while watching removes the subscription, drops
the client handle, and reaches the next connection attempt without any
sleep in between; a backoff occurs only when that subsequent connect
attempt fails. -/
theorem c7_nil_event_immediate_reconnect (cfg : WCfg) (p : Option Routes)
    (w : Option (List (Option Container))) (rest : List Inp) :
    watchStep cfg ⟨Loc.inner, true, true, p⟩
        (Inp.ping true :: Inp.ev StreamEv.nilEv :: rest) =
      some (⟨Loc.inner, false, false, p⟩, rest, [Act.removeListener]) ∧
    (watchRun cfg 3 ⟨Loc.inner, true, true, p⟩
        [Inp.ping true, Inp.ev StreamEv.nilEv, Inp.connect false]).1 =
      [Act.removeListener, Act.connectAttempt, Act.connectFail, Act.sleep] ∧
    Act.sleep ∉ (watchRun cfg 3 ⟨Loc.inner, true, true, p⟩
        [Inp.ping true, Inp.ev StreamEv.nilEv, Inp.connect true, Inp.world w]).1 := by
  refine ⟨rfl, rfl, ?_⟩
  cases hw : createRoutes cfg.cands w with
  | none =>
    simp [watchRun, watchStep, innerStep, selectStep, outerStep, connectSeq, hw]
  | some r =>
    cases hcb : cfg.hasCb with
    | false =>
      simp [watchRun, watchStep, innerStep, selectStep, outerStep, connectSeq,
        hw, hcb]
    | true =>
      simp [watchRun, watchStep, innerStep, selectStep, outerStep, connectSeq,
        hw, hcb]

/-- Witness for C7 at a concrete state and script. -/
theorem c7_witness :
    (watchRun cfg0 3 ⟨Loc.inner, true, true, none⟩
        [Inp.ping true, Inp.ev StreamEv.nilEv, Inp.connect false]).1 =
      [Act.removeListener, Act.connectAttempt, Act.connectFail, Act.sleep] :=
  (c7_nil_event_immediate_reconnect cfg0 none none []).2.1

/-- Claim C4: a failed container listing aborts the pass — `createRoutes`
returns the error with no table built — and the loop publishes nothing for
that pass: the event-triggered enumeration step emits no publish action and
leaves the previously published snapshot untouched. -/
theorem c4_listing_failure_no_publication (cands : List String) (cfg : WCfg)
    (p : Option Routes) (rest : List Inp) :
    createRoutes cands none = none ∧
    watchStep cfg ⟨Loc.inner, true, true, p⟩
        (Inp.ping true :: Inp.ev (StreamEv.apiEv "start") :: Inp.world none :: rest) =
      some (⟨Loc.inner, true, true, p⟩, rest, [Act.enumerate, Act.enumError]) ∧
    (∀ r : Routes, Act.publish r ∉ [Act.enumerate, Act.enumError]) := by
  refine ⟨rfl, rfl, ?_⟩
  intro r
  simp

/-- Witness for C4 at a concrete state. -/
theorem c4_witness :
    createRoutes ([] : List String) none = none ∧
    watchStep cfg0 ⟨Loc.inner, true, true, none⟩
        [Inp.ping true, Inp.ev (StreamEv.apiEv "start"), Inp.world none] =
      some (⟨Loc.inner, true, true, none⟩, [], [Act.enumerate, Act.enumError]) :=
  ⟨(c4_listing_failure_no_publication [] cfg0 none []).1,
   (c4_listing_failure_no_publication [] cfg0 none []).2.1⟩

/-- Claim C8: while watching, a non-nil event triggers an enumeration pass
iff its status is "start", "stop" or "die"; other statuses consume nothing
further and change nothing; and a failed triggered enumeration skips
publication, the previously published snapshot staying in place. -/
theorem c8_event_triggering (cfg : WCfg) (p : Option Routes) (st : String)
    (w : Option (List (Option Container))) (rest rest2 : List Inp) :
    ((st = "start" ∨ st = "stop" ∨ st = "die") →
      (createRoutes cfg.cands w = none →
        watchStep cfg ⟨Loc.inner, true, true, p⟩
            (Inp.ping true :: Inp.ev (StreamEv.apiEv st) :: Inp.world w :: rest) =
          some (⟨Loc.inner, true, true, p⟩, rest, [Act.enumerate, Act.enumError])) ∧
      (∀ r, createRoutes cfg.cands w = some r →
        watchStep cfg ⟨Loc.inner, true, true, p⟩
            (Inp.ping true :: Inp.ev (StreamEv.apiEv st) :: Inp.world w :: rest) =
          some (⟨Loc.inner, true, true, if cfg.hasCb then some r else p⟩, rest,
                Act.enumerate :: (if cfg.hasCb then [Act.publish r] else [])))) ∧
    (¬(st = "start" ∨ st = "stop" ∨ st = "die") →
      watchStep cfg ⟨Loc.inner, true, true, p⟩
          (Inp.ping true :: Inp.ev (StreamEv.apiEv st) :: rest2) =
        some (⟨Loc.inner, true, true, p⟩, rest2, [])) := by
  constructor
  · intro hst
    have hbeq : (st == "start" || st == "stop" || st == "die") = true := by
      rcases hst with h | h | h <;> simp [h]
    constructor
    · intro hw
      simp [watchStep, innerStep, selectStep, hbeq, hw]
    · intro r hw
      cases hcb : cfg.hasCb with
      | false => simp [watchStep, innerStep, selectStep, hbeq, hw, hcb]
      | true => simp [watchStep, innerStep, selectStep, hbeq, hw, hcb]
  · intro hst
    rcases not_or.mp hst with ⟨h1, h23⟩
    rcases not_or.mp h23 with ⟨h2, h3⟩
    have hbeq : (st == "start" || st == "stop" || st == "die") = false := by
      simp [h1, h2, h3]
    simp [watchStep, innerStep, selectStep, hbeq]

/-- Witness for C8: a "start" event with a failing listing, and a "create"
event which triggers nothing. -/
theorem c8_witness :
    watchStep cfg0 ⟨Loc.inner, true, true, none⟩
        [Inp.ping true, Inp.ev (StreamEv.apiEv "start"), Inp.world none] =
      some (⟨Loc.inner, true, true, none⟩, [], [Act.enumerate, Act.enumError]) ∧
    watchStep cfg0 ⟨Loc.inner, true, true, none⟩
        [Inp.ping true, Inp.ev (StreamEv.apiEv "create")] =
      some (⟨Loc.inner, true, true, none⟩, [], []) :=
  ⟨((c8_event_triggering cfg0 none "start" none [] []).1 (Or.inl rfl)).1 rfl,
   (c8_event_triggering cfg0 none "create" none [] []).2 (by decide)⟩

theorem connectSeq_publish (cfg : WCfg) (s : WState) (script : List Inp)
    (out : WState × List Inp × List Act) (r : Routes)
    (h : connectSeq cfg s script = some out) (hp : Act.publish r ∈ out.2.2) :
    cfg.hasCb = true ∧ ∃ w, createRoutes cfg.cands w = some r := by
  cases script with
  | nil => simp [connectSeq] at h
  | cons i rest =>
    cases i with
    | ping _ => simp [connectSeq] at h
    | subscribe _ => simp [connectSeq] at h
    | world _ => simp [connectSeq] at h
    | ev _ => simp [connectSeq] at h
    | connect ok =>
      cases ok with
      | false =>
        simp [connectSeq] at h
        subst h
        simp at hp
      | true =>
        cases rest with
        | nil => simp [connectSeq] at h
        | cons j rest2 =>
          cases j with
          | ping _ => simp [connectSeq] at h
          | subscribe _ => simp [connectSeq] at h
          | connect _ => simp [connectSeq] at h
          | ev _ => simp [connectSeq] at h
          | world w =>
            cases hw : createRoutes cfg.cands w with
            | none =>
              simp [connectSeq, hw] at h
              subst h
              simp at hp
            | some r2 =>
              cases hcb : cfg.hasCb with
              | false =>
                simp [connectSeq, hw, hcb] at h
                subst h
                simp at hp
              | true =>
                simp [connectSeq, hw, hcb] at h
                subst h
                simp only [List.mem_cons, List.not_mem_nil, or_false] at hp
                rcases hp with h1 | h1 | h1 | h1
                · exact absurd h1 (by simp)
                · exact absurd h1 (by simp)
                · exact absurd h1 (by simp)
                · injection h1 with h2
                  subst h2
                  exact ⟨rfl, w, hw⟩

theorem selectStep_publish (cfg : WCfg) (s : WState) (script : List Inp)
    (acts0 : List Act) (out : WState × List Inp × List Act) (r : Routes)
    (h : selectStep cfg s script acts0 = some out)
    (hp : Act.publish r ∈ out.2.2) :
    Act.publish r ∈ acts0 ∨
      (cfg.hasCb = true ∧ ∃ w, createRoutes cfg.cands w = some r) := by
  cases script with
  | nil => simp [selectStep] at h
  | cons i rest =>
    cases i with
    | ping _ => simp [selectStep] at h
    | subscribe _ => simp [selectStep] at h
    | connect _ => simp [selectStep] at h
    | world _ => simp [selectStep] at h
    | ev e =>
      cases e with
      | timeout =>
        simp [selectStep] at h
        subst h
        exact Or.inl hp
      | nilEv =>
        cases hwatch : s.watching with
        | false =>
          simp [selectStep, hwatch] at h
          subst h
          exact Or.inl hp
        | true =>
          simp [selectStep, hwatch] at h
          subst h
          rcases List.mem_append.mp hp with h1 | h1
          · exact Or.inl h1
          · simp at h1
      | apiEv st =>
        cases hst : (st == "start" || st == "stop" || st == "die") with
        | false =>
          simp [selectStep, hst] at h
          subst h
          exact Or.inl hp
        | true =>
          cases rest with
          | nil => simp [selectStep, hst] at h
          | cons j rest2 =>
            cases j with
            | ping _ => simp [selectStep, hst] at h
            | subscribe _ => simp [selectStep, hst] at h
            | connect _ => simp [selectStep, hst] at h
            | ev _ => simp [selectStep, hst] at h
            | world w =>
              cases hw : createRoutes cfg.cands w with
              | none =>
                simp [selectStep, hst, hw] at h
                subst h
                rcases List.mem_append.mp hp with h1 | h1
                · exact Or.inl h1
                · simp at h1
              | some r2 =>
                cases hcb : cfg.hasCb with
                | false =>
                  simp [selectStep, hst, hw, hcb] at h
                  subst h
                  rcases List.mem_append.mp hp with h1 | h1
                  · exact Or.inl h1
                  · simp at h1
                | true =>
                  simp [selectStep, hst, hw, hcb] at h
                  subst h
                  rcases List.mem_append.mp hp with h1 | h1
                  · exact Or.inl h1
                  · simp only [List.mem_cons, List.not_mem_nil,
                      or_false] at h1
                    rcases h1 with h2 | h2
                    · exact absurd h2 (by simp)
                    · injection h2 with h3
                      subst h3
                      exact Or.inr ⟨rfl, w, hw⟩

theorem innerStep_publish (cfg : WCfg) (s : WState) (script : List Inp)
    (out : WState × List Inp × List Act) (r : Routes)
    (h : innerStep cfg s script = some out) (hp : Act.publish r ∈ out.2.2) :
    cfg.hasCb = true ∧ ∃ w, createRoutes cfg.cands w = some r := by
  cases hcl : s.client with
  | false =>
    simp [innerStep, hcl] at h
    subst h
    simp at hp
  | true =>
    cases script with
    | nil => simp [innerStep, hcl] at h
    | cons i rest =>
      cases i with
      | connect _ => simp [innerStep, hcl] at h
      | subscribe _ => simp [innerStep, hcl] at h
      | world _ => simp [innerStep, hcl] at h
      | ev _ => simp [innerStep, hcl] at h
      | ping ok =>
        cases ok with
        | false =>
          cases hwatch : s.watching with
          | true =>
            simp [innerStep, hcl, hwatch] at h
            subst h
            simp at hp
          | false =>
            simp [innerStep, hcl, hwatch] at h
            subst h
            simp at hp
        | true =>
          cases hwatch : s.watching with
          | true =>
            simp [innerStep, hcl, hwatch] at h
            rcases selectStep_publish cfg s rest [] out r h hp with h1 | h1
            · simp at h1
            · exact h1
          | false =>
            cases rest with
            | nil => simp [innerStep, hcl, hwatch] at h
            | cons j rest2 =>
              cases j with
              | ping _ => simp [innerStep, hcl, hwatch] at h
              | connect _ => simp [innerStep, hcl, hwatch] at h
              | world _ => simp [innerStep, hcl, hwatch] at h
              | ev _ => simp [innerStep, hcl, hwatch] at h
              | subscribe ok2 =>
                cases ok2 with
                | false =>
                  simp [innerStep, hcl, hwatch] at h
                  subst h
                  simp at hp
                | true =>
                  simp [innerStep, hcl, hwatch] at h
                  rcases selectStep_publish cfg _ rest2 [Act.addListener]
                      out r h hp with h1 | h1
                  · simp at h1
                  · exact h1

theorem outerStep_publish (cfg : WCfg) (s : WState) (script : List Inp)
    (out : WState × List Inp × List Act) (r : Routes)
    (h : outerStep cfg s script = some out) (hp : Act.publish r ∈ out.2.2) :
    cfg.hasCb = true ∧ ∃ w, createRoutes cfg.cands w = some r := by
  cases hcl : s.client with
  | false =>
    simp [outerStep, hcl] at h
    exact connectSeq_publish cfg s script out r h hp
  | true =>
    cases script with
    | nil => simp [outerStep, hcl] at h
    | cons i rest =>
      cases i with
      | connect _ => simp [outerStep, hcl] at h
      | subscribe _ => simp [outerStep, hcl] at h
      | world _ => simp [outerStep, hcl] at h
      | ev _ => simp [outerStep, hcl] at h
      | ping ok =>
        cases ok with
        | false =>
          simp [outerStep, hcl] at h
          subst h
          simp at hp
        | true =>
          simp [outerStep, hcl] at h
          exact connectSeq_publish cfg s rest out r h hp

theorem watchStep_publish (cfg : WCfg) (s : WState) (script : List Inp)
    (out : WState × List Inp × List Act) (r : Routes)
    (h : watchStep cfg s script = some out) (hp : Act.publish r ∈ out.2.2) :
    cfg.hasCb = true ∧ ∃ w, createRoutes cfg.cands w = some r := by
  cases hloc : s.loc with
  | outer =>
    rw [watchStep, hloc] at h
    exact outerStep_publish cfg s script out r h hp
  | inner =>
    rw [watchStep, hloc] at h
    exact innerStep_publish cfg s script out r h hp

theorem watchRun_no_publish (cands : List String) :
    ∀ (n : Nat) (s : WState) (script : List Inp) (r : Routes),
      Act.publish r ∉ (watchRun ⟨cands, false⟩ n s script).1 := by
  intro n
  induction n with
  | zero => intro s script r; simp [watchRun]
  | succ m ih =>
    intro s script r hmem
    cases hstep : watchStep ⟨cands, false⟩ s script with
    | none => simp [watchRun, hstep] at hmem
    | some out =>
      obtain ⟨s2, rest, acts⟩ := out
      simp only [watchRun, hstep, List.mem_append] at hmem
      rcases hmem with h | h
      · have := (watchStep_publish ⟨cands, false⟩ s script (s2, rest, acts)
            r hstep h).1
        simp at this
      · exact ih s2 rest r h

/-- Claim C10: the consumer callback is never handed a nil table — any
published value in any step is a snapshot some enumeration world really
produces (`createRoutes` succeeded on it), and publication happens only
with a registered callback; with no callback registered, the loop still
steps and enumerates but no run of any length ever emits a publish
action. -/
theorem c10_no_nil_publication (cfg : WCfg) (s : WState) (script : List Inp)
    (out : WState × List Inp × List Act) (r : Routes) (cands : List String)
    (n : Nat) (s2 : WState) (script2 : List Inp) (r2 : Routes)
    (p : Option Routes) (w : Option (List (Option Container)))
    (rest : List Inp) :
    (watchStep cfg s script = some out → Act.publish r ∈ out.2.2 →
      cfg.hasCb = true ∧ ∃ v, createRoutes cfg.cands v = some r) ∧
    Act.publish r2 ∉ (watchRun ⟨cands, false⟩ n s2 script2).1 ∧
    (∀ rs, createRoutes cands w = some rs →
      watchStep ⟨cands, false⟩ ⟨Loc.inner, true, true, p⟩
          (Inp.ping true :: Inp.ev (StreamEv.apiEv "start") :: Inp.world w :: rest) =
        some (⟨Loc.inner, true, true, p⟩, rest, [Act.enumerate])) := by
  refine ⟨?_, watchRun_no_publish cands n s2 script2 r2, ?_⟩
  · intro h hp
    exact watchStep_publish cfg s script out r h hp
  · intro rs hw
    simp [watchStep, innerStep, selectStep, hw]

/-- Witness for C10 at a concrete publishing step and a concrete
callback-free run. -/
theorem c10_witness :
    (cfg0.hasCb = true ∧ ∃ v, createRoutes cfg0.cands v = some []) ∧
    Act.publish ([] : Routes) ∉
      (watchRun ⟨["80"], false⟩ 2 ⟨Loc.inner, true, true, none⟩
        [Inp.ping true, Inp.ev (StreamEv.apiEv "start"), Inp.world (some [])]).1 := by
  have h := c10_no_nil_publication cfg0 ⟨Loc.inner, true, true, none⟩
    [Inp.ping true, Inp.ev (StreamEv.apiEv "start"), Inp.world (some [])]
    (⟨Loc.inner, true, true, some []⟩, [], [Act.enumerate, Act.publish []])
    [] ["80"] 2 ⟨Loc.inner, true, true, none⟩
    [Inp.ping true, Inp.ev (StreamEv.apiEv "start"), Inp.world (some [])]
    ([] : Routes) none (some []) []
  exact ⟨h.1 rfl (by decide), h.2.1⟩

end AutoProxy
